import Mathlib

/-!
Shallow embedding of the Lumina backend (image upload / semantic search
service) and proofs about its orchestration logic.

The embedded code comes from:
 - src/backend/vectorStore.py      (class VectorStore)
 - src/backend/clipEmbeddings.py   (class Embedder)
 - src/backend/services/image_service.py (class ImageService)
 - src/backend/api/routes.py       (FastAPI handlers)

External services (Cohere embedding API, Pinecone vector index, PIL image
decoding / JPEG serialisation) are modelled as oracles: their outcomes are
explicit parameters (`Except String _` results, ranking functions,
per-call failure options).  Machine floats are modelled as rationals.
Python dictionaries returned by the service layer are modelled as Lean
structures whose `Option` fields mirror the keys that may be present.
-/

namespace Lumina

/-- A JSON-like metadata value stored alongside a vector: string or number. -/
inductive MetaVal where
  | str (s : String)
  | num (q : ℚ)
  deriving DecidableEq, Repr

/-- Metadata dictionary: association list of keys to values
(mirrors the Python dicts passed to Pinecone upsert). -/
abbrev Meta := List (String × MetaVal)

/-- `metadata.get(key, default)` of Python dicts. -/
def metaGetD (m : Meta) (key : String) (dflt : MetaVal) : MetaVal :=
  match m.lookup key with
  | some v => v
  | none => dflt

/-- One record held by the Pinecone index: id, vector values, metadata. -/
structure StoredItem where
  id : String
  values : List ℚ
  metadata : Meta
  deriving DecidableEq, Repr

/-- The remote vector index state: pairs of (namespace, item).
Pinecone keys records by (namespace, id). -/
abbrev IndexState := List (String × StoredItem)

/-- Pinecone upsert of a single record: insert-or-overwrite keyed by
(namespace, id).  Any record previously stored under the same key is
replaced; the index is an unordered key-value store, so the state is kept
as a duplicate-free association list. -/
def upsertOne (st : IndexState) (ns : String) (it : StoredItem) : IndexState :=
  st.filter (fun p => !(p.1 == ns && p.2.id == it.id)) ++ [(ns, it)]

/-- Fetch the record stored under (namespace, id), if any. -/
def lookupItem (st : IndexState) (ns : String) (i : String) : Option StoredItem :=
  (st.find? (fun p => p.1 == ns && p.2.id == i)).map Prod.snd

/-- The ids currently stored in a namespace. -/
def storedIds (st : IndexState) (ns : String) : List String :=
  (st.filter (fun p => p.1 == ns)).map (fun p => p.2.id)

/-- Upsert a list of records in order into one namespace. -/
def upsertAll (st : IndexState) (ns : String) (items : List StoredItem) : IndexState :=
  items.foldl (fun s it => upsertOne s ns it) st

/-- `VectorStore.deleteId`: `self.idx.delete(ids=ids, namespace=namespace)` —
removes the named records from the namespace (idempotent). -/
def deleteId (st : IndexState) (ids : List String) (ns : String) : IndexState :=
  st.filter (fun p => !(p.1 == ns && ids.contains p.2.id))

/-- `VectorStore.storeImage(imageId, embeddings, fileName, nameSpace)`:
upserts one record whose metadata is
`{"type": "image", "fileName": fileName, "timestamp": time.time()}`.
Note the metadata key is `"fileName"` (capital N), exactly as in the
source.  The call passes the namespace value to `idx.upsert` under the
misspelled keyword `nameSpace` — the sibling calls `storeMultipleImages`,
`semanticSearch` and `deleteId` all spell it `namespace` — so it never
binds the upsert's `namespace` parameter: the record is written to the
default namespace `""` and the `nameSpace` argument is ignored. -/
def storeImage (st : IndexState) (imageId : String) (embeddings : List ℚ)
    (fileName : String) (nameSpace : String) (now : ℚ) : IndexState :=
  upsertOne st ""
    ⟨imageId, embeddings,
      [("type", MetaVal.str "image"), ("fileName", MetaVal.str fileName),
       ("timestamp", MetaVal.num now)]⟩

end Lumina

namespace Lumina

/-! ## Embedder (`clipEmbeddings.py`) image preparation -/

/-- In-memory PIL image, abstracted to what `_image_to_base64` inspects:
pixel dimensions (`image.size == (width, height)`) and colour mode. -/
structure PImage where
  width : Nat
  height : Nat
  mode : String
  deriving DecidableEq, Repr

/-- The fixed resize cap of `Embedder._image_to_base64`. -/
def max_size : Nat := 512

/-- The resize branch: `ratio = max_size / max(image.size)`;
`new_size = tuple(int(dim * ratio) for dim in image.size)`.
Python `int` on a non-negative value is the floor. -/
def resizeCapped (image : PImage) : PImage :=
  let scale : ℚ := (max_size : ℚ) / (max image.width image.height : ℚ)
  { image with
    width := (((image.width : ℚ) * scale).floor).toNat,
    height := (((image.height : ℚ) * scale).floor).toNat }

/-- The image as prepared by `_image_to_base64` before serialisation:
resized when its longest side exceeds `max_size`, then converted to RGB
when its mode is not already RGB. -/
def prepImage (image : PImage) : PImage :=
  let image := if max_size < max image.width image.height then resizeCapped image else image
  if image.mode ≠ "RGB" then { image with mode := "RGB" } else image

/-- `Embedder._image_to_base64`: prepares the image, saves it with
`format="JPEG"` (`saveBytes` models `image.save(buffered, format=...)`),
base64-encodes the bytes (`b64encode`) and returns the data string
`"data:image/jpeg;base64," + base64_string`. -/
def image_to_base64 (saveBytes : String → PImage → List Nat)
    (b64encode : List Nat → String) (image : PImage) : String :=
  let prepared := prepImage image
  let img_bytes := saveBytes "JPEG" prepared
  let base64_string := b64encode img_bytes
  "data:image/jpeg;base64," ++ base64_string

end Lumina

namespace Lumina

/-! ## Image Service (`services/image_service.py`) -/

/-- Outcomes of the external calls an upload makes, plus the clock.
`decode` models `Image.open(BytesIO(image_bytes))`, `embedImage` the
Cohere call `Embedder.embedImage`, `embedText` the call
`Embedder.embedText`; `now` is `time.time()` at the upsert. -/
structure Env where
  decode : List Nat → Except String PImage
  embedImage : PImage → Except String (List ℚ)
  embedText : String → Except String (List ℚ)
  now : ℚ

/-- An uploaded file object: its `filename` attribute and the outcome of
`await image_file.read()`. -/
structure UploadFile where
  filename : String
  readRes : Except String (List Nat)
  deriving Repr

/-- Result dictionary of `ImageService.upload_image`; `Option` fields
mirror which keys the success / failure dicts carry. -/
structure UploadResult where
  message : Option String := none
  image_id : Option String := none
  filename : Option String := none
  error : Option String := none
  deriving DecidableEq, Repr

/-- The id logic of `upload_image`: `if not image_id: image_id =
f"Image_{uuid.uuid4().hex[:8]}"` — a missing or empty id is replaced by a
generated one (`genHex` models `uuid.uuid4().hex[:8]`). -/
def chooseId (image_id : Option String) (genHex : String) : String :=
  match image_id with
  | some s => if s = "" then "Image_" ++ genHex else s
  | none => "Image_" ++ genHex

/-- `ImageService.upload_image(image_file, image_id=None)`.
`storeFail` is the outcome of the remote upsert inside
`storage.storeImage` (`some e` when it raises).  The steps read the file,
decode it, embed it and store it; any failure returns the error
dictionary `{"error": ..., "image_id": ...}`.  Returns the result
dictionary together with the vector-store state after the call. -/
def upload_image (env : Env) (st : IndexState) (file : UploadFile)
    (image_id : Option String) (genHex : String) (storeFail : Option String) :
    UploadResult × IndexState :=
  let image_id := chooseId image_id genHex
  match file.readRes with
  | .error e =>
      ({ error := some ("Failed to upload image: " ++ e), image_id := some image_id }, st)
  | .ok image_bytes =>
    match env.decode image_bytes with
    | .error e =>
        ({ error := some ("Failed to upload image: " ++ e), image_id := some image_id }, st)
    | .ok image =>
      match env.embedImage image with
      | .error e =>
          ({ error := some ("Failed to upload image: " ++ e), image_id := some image_id }, st)
      | .ok embedding =>
        match storeFail with
        | some e =>
            ({ error := some ("Failed to upload image: " ++ e), image_id := some image_id }, st)
        | none =>
            ({ message := some "Image uploaded successfully",
               image_id := some image_id,
               filename := some file.filename },
             storeImage st image_id embedding file.filename "images" env.now)

/-- One file of a batch upload: the file object plus the per-file oracle
outcomes (`genHex` for its generated id, `storeFail` for its upsert). -/
structure BatchFileCase where
  filename : String
  readRes : Except String (List Nat)
  genHex : String
  storeFail : Option String

/-- An entry of the `failed` list of `upload_images_batch`. -/
structure FailEntry where
  filename : String
  error : String
  deriving DecidableEq, Repr

/-- Result dictionary of `ImageService.upload_images_batch`. -/
structure BatchResult where
  message : String
  uploaded_ids : List String
  failed : List FailEntry
  total_uploaded : Nat
  total_failed : Nat
  deriving DecidableEq, Repr

/-- The body of the `for image_file in image_files` loop of
`upload_images_batch`: either the generated id together with the updated
store state, or the `{filename, error}` entry appended to `failed`. -/
def processBatchFile (env : Env) (st : IndexState) (f : BatchFileCase) :
    Except FailEntry (String × IndexState) :=
  let image_id := "Image_" ++ f.genHex
  match f.readRes with
  | .error e => .error ⟨f.filename, e⟩
  | .ok image_bytes =>
    match env.decode image_bytes with
    | .error e => .error ⟨f.filename, e⟩
    | .ok image =>
      match env.embedImage image with
      | .error e => .error ⟨f.filename, e⟩
      | .ok embedding =>
        match f.storeFail with
        | some e => .error ⟨f.filename, e⟩
        | none => .ok (image_id, storeImage st image_id embedding f.filename "images" env.now)

/-- The loop of `upload_images_batch`, threading the store state and the
`uploaded_ids` / `failed` accumulators. -/
def uploadBatchGo (env : Env) :
    List BatchFileCase → IndexState → List String → List FailEntry →
    BatchResult × IndexState
  | [], st, ids, failed =>
      ({ message := "Uploaded " ++ toString ids.length ++ " images",
         uploaded_ids := ids,
         failed := failed,
         total_uploaded := ids.length,
         total_failed := failed.length }, st)
  | f :: rest, st, ids, failed =>
    match processBatchFile env st f with
    | .ok (image_id, st2) => uploadBatchGo env rest st2 (ids ++ [image_id]) failed
    | .error fe => uploadBatchGo env rest st ids (failed ++ [fe])

/-- `ImageService.upload_images_batch(image_files)`. -/
def upload_images_batch (env : Env) (st : IndexState) (files : List BatchFileCase) :
    BatchResult × IndexState :=
  uploadBatchGo env files st [] []

/-! ## Semantic search -/

/-- One match of a Pinecone query response, as `search_images` reads it:
`match.get('id', ...)`, `match.get('score', 0)`, `match.get('metadata', ...)`. -/
structure QueryMatch where
  id : Option String
  score : Option ℚ
  metadata : Option Meta
  deriving DecidableEq, Repr

/-- `VectorStore.semanticSearch` / `idx.query(..., include_metadata=True)`:
the remote index returns up to `top_k` matches.  The nearest-neighbour
ordering is external, so it is an oracle `ranking` (ids with their cosine
scores, descending); the metadata of each returned match is copied from
the stored record with that id, which is Pinecone's documented behaviour
under `include_metadata=True`. -/
def semanticSearch (st : IndexState) (ranking : List (String × ℚ))
    (ns : String) (top_k : Nat) : List QueryMatch :=
  (ranking.take top_k).filterMap
    (fun p => (lookupItem st ns p.1).map
      (fun it => ⟨some it.id, some p.2, some it.metadata⟩))

/-- Oracles used by `search_images`: the text-embedding call outcome, the
ranking the remote index would return for a query vector, and whether the
remote query call raises. -/
structure SearchEnv where
  embedText : String → Except String (List ℚ)
  ranking : List ℚ → List (String × ℚ)
  queryFail : Option String

/-- The score-to-percentage map of `search_images`:
`((match.get('score', 0) + 1) / 2) * 100`. -/
def simPercent (score : ℚ) : ℚ :=
  ((score + 1) / 2) * 100

/-- One formatted entry of the `results` list built by `search_images`. -/
structure SearchEntry where
  id : String
  filename : MetaVal
  score : ℚ
  similarity_percent : ℚ
  deriving DecidableEq, Repr

/-- The per-match formatting step of `search_images`.  Note it reads the
metadata key `"filename"` (all lowercase) with default `'Unknown'`. -/
def formatMatch (m : QueryMatch) : SearchEntry :=
  let metadata := m.metadata.getD []
  { id := m.id.getD "Unknown",
    filename := metaGetD metadata "filename" (MetaVal.str "Unknown"),
    score := m.score.getD 0,
    similarity_percent := simPercent (m.score.getD 0) }

/-- Result dictionary of `ImageService.search_images`. -/
structure SearchResultDict where
  query : String
  results : List SearchEntry
  total_found : Nat
  error : Option String
  deriving DecidableEq, Repr

/-- `ImageService.search_images(query, top_k=10, namespace="images")`.
`top_k` is an integer already validated (or not) by the caller; the model
clamps it with `toNat` only at the remote `take`, which keeps the service
itself total, as the Python service is (it never raises). -/
def search_images (senv : SearchEnv) (st : IndexState) (query : String)
    (top_k : ℤ) (ns : String) : SearchResultDict :=
  match senv.embedText query with
  | .error e =>
      { query := query, results := [], total_found := 0,
        error := some ("Search failed: " ++ e) }
  | .ok query_embedding =>
    match senv.queryFail with
    | some e =>
        { query := query, results := [], total_found := 0,
          error := some ("Search failed: " ++ e) }
    | none =>
      let found := semanticSearch st (senv.ranking query_embedding) ns top_k.toNat
      let formatted_results := found.map formatMatch
      { query := query, results := formatted_results,
        total_found := formatted_results.length, error := none }

/-! ## Delete, stats, telemetry -/

/-- Result dictionary of `ImageService.delete_image`. -/
structure DeleteResult where
  message : Option String := none
  image_id : Option String := none
  error : Option String := none
  deriving DecidableEq, Repr

/-- `ImageService.delete_image(image_id, namespace="images")`.
`delFail` is the outcome of the remote `idx.delete` call. -/
def delete_image (st : IndexState) (image_id : String) (ns : String)
    (delFail : Option String) : DeleteResult × IndexState :=
  match delFail with
  | some e =>
      ({ error := some ("Failed to delete image: " ++ e), image_id := some image_id }, st)
  | none =>
      ({ message := some "Image deleted successfully", image_id := some image_id },
       deleteId st [image_id] ns)

/-- The aggregate snapshot `idx.describe_index_stats()` reports. -/
structure StatsData where
  total_vectors : Nat
  dimension : Nat
  namespaces : List (String × Nat)
  deriving DecidableEq, Repr

/-- Result dictionary of `ImageService.get_database_stats` (and of
`VectorStore.getStats` on success). -/
structure StatsResult where
  total_vectors : Option Nat := none
  dimension : Option Nat := none
  namespaces : Option (List (String × Nat)) := none
  error : Option String := none
  deriving DecidableEq, Repr

/-- `ImageService.get_database_stats()`: passes the remote stats through,
or returns `{"error": "Failed to get stats: ..."}`. -/
def get_database_stats (statsRes : Except String StatsData) : StatsResult :=
  match statsRes with
  | .ok stats =>
      { total_vectors := some stats.total_vectors,
        dimension := some stats.dimension,
        namespaces := some stats.namespaces }
  | .error e => { error := some ("Failed to get stats: " ++ e) }

/-- Result dictionary of `ImageService.get_telemetry` (flattened:
`database_*` fields are the `database` sub-dict, `embedding_*` the
`embedding_service` sub-dict). -/
structure TelemetryResult where
  status : String
  database_connected : Bool
  database_total_vectors : Nat
  database_dimension : Nat
  database_namespaces : List (String × Nat)
  embedding_available : Bool
  embedding_model : Option String
  uptime_seconds : ℤ
  deriving DecidableEq, Repr

/-- `ImageService.get_telemetry()`.  Every step of its `try` block is
total: `get_database_stats` already caught any stats failure and the rest
is attribute access and arithmetic, so the `except` branch of the Python
code (the one that would return `status: "error"`) is unreachable and the
model has no failure case.  When the stats call failed, the defaults
`stats.get("total_vectors", 0)` etc. apply. -/
def get_telemetry (statsRes : Except String StatsData) (now start : ℚ)
    (hasClient : Bool) (model : String) : TelemetryResult :=
  let stats := get_database_stats statsRes
  { status := "operational",
    database_connected := true,
    database_total_vectors := stats.total_vectors.getD 0,
    database_dimension := stats.dimension.getD 0,
    database_namespaces := stats.namespaces.getD [],
    embedding_available := hasClient,
    embedding_model := some model,
    uptime_seconds := ((now - start) : ℚ).floor }

end Lumina

namespace Lumina

/-! ## API routes (`api/routes.py`) -/

/-- How the `top_k` request value reaches `int(...)` in the search route:
absent everywhere (Python then converts the default `10`), convertible to
an integer `n`, or a value on which `int(...)` raises `ValueError`. -/
inductive TopKInput where
  | absent
  | numeric (n : ℤ)
  | nonNumeric
  deriving DecidableEq, Repr

/-- Response of the `POST /api/search` handler: HTTP status, the
`detail` string of a raised `HTTPException` (when any), the JSON body on
success, and whether `image_service.search_images` was invoked (hence
whether any embedding / vector-store call was attempted). -/
structure SearchRouteResponse where
  status : Nat
  detail : Option String
  body : Option SearchResultDict
  serviceCalled : Bool
  deriving Repr

/-- The `search` handler of `routes.py`:
`query = body.get("query", "")`; empty query → 400;
`int(top_k)` raising `ValueError` → 400 (caught by `except ValueError`);
`top_k < 1 or top_k > 100` → 400; otherwise the service is called and an
`error` key in its result maps to 500, else 200. -/
def route_search (senv : SearchEnv) (st : IndexState)
    (body_query : Option String) (topk : TopKInput) (ns : String) :
    SearchRouteResponse :=
  let query := body_query.getD ""
  if query = "" then
    { status := 400, detail := some "Query parameter is required",
      body := none, serviceCalled := false }
  else
    match topk with
    | TopKInput.nonNumeric =>
        { status := 400, detail := some "Invalid top_k value",
          body := none, serviceCalled := false }
    | TopKInput.absent =>
        let result := search_images senv st query 10 ns
        match result.error with
        | some e => { status := 500, detail := some e, body := none, serviceCalled := true }
        | none => { status := 200, detail := none, body := some result, serviceCalled := true }
    | TopKInput.numeric n =>
        if n < 1 ∨ 100 < n then
          { status := 400, detail := some "top_k must be between 1 and 100",
            body := none, serviceCalled := false }
        else
          let result := search_images senv st query n ns
          match result.error with
          | some e => { status := 500, detail := some e, body := none, serviceCalled := true }
          | none => { status := 200, detail := none, body := some result, serviceCalled := true }

/-- The validation predicate of the search route, as the claim states it:
query missing or empty, or `top_k` non-numeric, or the effective `top_k`
outside `[1, 100]`. -/
def searchRejected (body_query : Option String) (topk : TopKInput) : Prop :=
  body_query.getD "" = "" ∨ topk = TopKInput.nonNumeric ∨
    (∃ n : ℤ, topk = TopKInput.numeric n ∧ (n < 1 ∨ 100 < n))

instance (body_query : Option String) (topk : TopKInput) :
    Decidable (searchRejected body_query topk) := by
  unfold searchRejected
  cases topk with
  | absent => simp; exact inferInstance
  | numeric n => simp; exact inferInstance
  | nonNumeric => simp; exact inferInstance

/-- The `GET /api/telemetry` handler of `routes.py`: calls
`image_service.get_telemetry()` and returns it with status 200.  Its
`except` branch (status 500, body `{"status": "error", ...}`) only fires
when that call raises — and `get_telemetry` is total, so the handler
always takes the 200 path. -/
def route_get_telemetry (statsRes : Except String StatsData) (now start : ℚ)
    (hasClient : Bool) (model : String) : Nat × TelemetryResult :=
  (200, get_telemetry statsRes now start hasClient model)

end Lumina

namespace Lumina

/-! ## `VectorStore.storeMultipleImages` (batch upsert with chunking) -/

/-- One element of the `imageData` argument of `storeMultipleImages`. -/
structure ImageData where
  id : String
  embedding : List ℚ
  filename : String
  deriving DecidableEq, Repr

/-- The vector tuple `storeMultipleImages` builds for one item:
`(item["id"], item["embedding"], {"type": "image", "filename": ...,
"timestamp": time.time()})`.  Here the metadata key is `"filename"`
(all lowercase, unlike `storeImage`). -/
def imageVector (now : ℚ) (item : ImageData) : StoredItem :=
  ⟨item.id, item.embedding,
    [("type", MetaVal.str "image"), ("filename", MetaVal.str item.filename),
     ("timestamp", MetaVal.num now)]⟩

/-- The slices `vectors[i:i+100]` for `i in range(0, len(vectors), 100)`:
consecutive chunks of at most 100 elements, in order. -/
def chunksOf100 {α : Type} (l : List α) : List (List α) :=
  if l.isEmpty then []
  else l.take 100 :: chunksOf100 (l.drop 100)
termination_by l.length
decreasing_by
  cases l with
  | nil => simp_all
  | cons x xs => simp [List.length_drop]; omega

/-- What a run of the chunk loop produced: the argument of each remote
`idx.upsert` call that was made (in order), the index state afterwards,
and the exception that aborted the loop, if any (`storeMultipleImages`
has no `try`, so a failing chunk call propagates and ends the loop). -/
structure StoreCallsResult where
  calls : List (List StoredItem)
  state : IndexState
  raised : Option String
  deriving Repr

/-- The loop `for i in range(0, len(vectors), maxSize): ... idx.upsert(batch)`
run over a pre-chunked list.  `chunkFail k` is the outcome of the `k`-th
remote upsert call (`some e` when it raises). -/
def runChunkCalls (ns : String) (chunkFail : Nat → Option String) :
    List (List StoredItem) → Nat → IndexState → StoreCallsResult
  | [], _, st => ⟨[], st, none⟩
  | c :: cs, k, st =>
    match chunkFail k with
    | some e => ⟨[c], st, some e⟩
    | none =>
      let r := runChunkCalls ns chunkFail cs (k + 1) (upsertAll st ns c)
      ⟨c :: r.calls, r.state, r.raised⟩

/-- `VectorStore.storeMultipleImages(imageData, nameSpace)`. -/
def storeMultipleImages (st : IndexState) (imageData : List ImageData)
    (nameSpace : String) (now : ℚ) (chunkFail : Nat → Option String) :
    StoreCallsResult :=
  runChunkCalls nameSpace chunkFail (chunksOf100 (imageData.map (imageVector now))) 0 st

/-! ## Derived per-file outcome of a batch upload -/

/-- The failure the loop body of `upload_images_batch` records for one
file, if any: the first failing step among read, decode, embed, store.
`none` means the file uploads successfully.  This mirrors
`processBatchFile` but is independent of the store state. -/
def batchFileFail (env : Env) (f : BatchFileCase) : Option FailEntry :=
  match f.readRes with
  | .error e => some ⟨f.filename, e⟩
  | .ok image_bytes =>
    match env.decode image_bytes with
    | .error e => some ⟨f.filename, e⟩
    | .ok image =>
      match env.embedImage image with
      | .error e => some ⟨f.filename, e⟩
      | .ok _ =>
        match f.storeFail with
        | some e => some ⟨f.filename, e⟩
        | none => none

/-- Whether one file of a batch upload succeeds end to end. -/
def batchFileOk (env : Env) (f : BatchFileCase) : Bool :=
  (batchFileFail env f).isNone

/-! ## Concrete inputs used by witnesses and counterexamples -/

/-- An environment in which decoding, embedding and the clock all behave. -/
def envOk : Env :=
  ⟨fun _ => Except.ok ⟨64, 64, "RGB"⟩, fun _ => Except.ok [1], fun _ => Except.ok [1], 0⟩

/-- A small valid upload file named `cat.jpg`. -/
def fileCat : UploadFile := ⟨"cat.jpg", Except.ok [7]⟩

/-- The store state after uploading `fileCat` into an empty index with
generated hex `abc12345`.  Because of the `nameSpace` keyword slip in
`storeImage`, the record sits in the default namespace `""`. -/
def stAfterUpload : IndexState :=
  (upload_image envOk [] fileCat none "abc12345" none).2

/-- A search environment whose remote ranking returns the uploaded item
with cosine score 1. -/
def senvHit : SearchEnv :=
  ⟨fun _ => Except.ok [1], fun _ => [("Image_abc12345", 1)], none⟩

/-- Two batch items, and a chunk oracle that never fails. -/
def dataTwo : List ImageData := [⟨"a", [1], "a.jpg"⟩, ⟨"b", [2], "b.jpg"⟩]

def noChunkFail : Nat → Option String := fun _ => none

/-- A search environment whose text-embedding call raises. -/
def senvFail : SearchEnv := ⟨fun _ => Except.error "boom", fun _ => [], none⟩

/-- The formatted entry that `search_images` produces for the uploaded
item under `senvHit`. -/
def entryHit : SearchEntry :=
  ⟨"Image_abc12345", MetaVal.str "Unknown", 1, simPercent 1⟩

/-- An environment whose decode step raises on every input. -/
def envDecodeFail : Env :=
  ⟨fun _ => Except.error "cannot identify image file",
   fun _ => Except.ok [1], fun _ => Except.ok [1], 0⟩

/-- A batch file that uploads successfully under `envOk`. -/
def fileGood : BatchFileCase := ⟨"a.jpg", Except.ok [1], "aaaa", none⟩

/-- A batch file whose read step raises. -/
def fileBad : BatchFileCase := ⟨"b.jpg", Except.error "bad read", "bbbb", none⟩

/-- A two-file batch with one success and one failure. -/
def filesMix : List BatchFileCase := [fileGood, fileBad]

end Lumina

namespace Lumina

/-! ## Helper lemmas about the index state -/

theorem find?_filter_not_append {α : Type} (p : α → Bool) (a : α) (ha : p a = true)
    (l : List α) : ((l.filter fun x => !p x) ++ [a]).find? p = some a := by
  induction l with
  | nil => simp [List.find?, ha]
  | cons x xs ih =>
    by_cases hx : p x = true
    · simpa [List.filter_cons, hx] using ih
    · simpa [List.filter_cons, List.find?, hx] using ih

theorem lookupItem_upsertOne_self (st : IndexState) (ns : String) (it : StoredItem) :
    lookupItem (upsertOne st ns it) ns it.id = some it := by
  unfold upsertOne lookupItem
  rw [find?_filter_not_append (fun q => q.1 == ns && q.2.id == it.id) (ns, it) (by simp) st]
  rfl

theorem mem_storedIds_upsertOne_self (st : IndexState) (ns : String) (it : StoredItem) :
    it.id ∈ storedIds (upsertOne st ns it) ns := by
  unfold upsertOne storedIds
  rw [List.filter_append, List.map_append]
  apply List.mem_append_right
  simp

theorem mem_storedIds_upsertOne_of_mem (st : IndexState) (ns0 ns : String)
    (it : StoredItem) (i : String) (h : i ∈ storedIds st ns0) :
    i ∈ storedIds (upsertOne st ns it) ns0 := by
  unfold storedIds at h
  unfold upsertOne storedIds
  rw [List.filter_append, List.map_append]
  rcases List.mem_map.mp h with ⟨p, hpmem, hpi⟩
  rcases List.mem_filter.mp hpmem with ⟨hpst, hp1⟩
  by_cases hkey : (p.1 == ns && p.2.id == it.id) = true
  · apply List.mem_append_right
    rcases Bool.and_eq_true_iff.mp hkey with ⟨hk1, hk2⟩
    have hns : p.1 = ns := by simpa using hk1
    have hid : p.2.id = it.id := by simpa using hk2
    have hns0 : p.1 = ns0 := by simpa using hp1
    have : (ns == ns0) = true := by simp [← hns, hns0]
    simp [this, ← hpi, hid]
  · apply List.mem_append_left
    apply List.mem_map.mpr
    refine ⟨p, List.mem_filter.mpr ⟨List.mem_filter.mpr ⟨hpst, ?_⟩, hp1⟩, hpi⟩
    have hkf := eq_false_of_ne_true hkey
    simp [hkf]

end Lumina

namespace Lumina

/-! ## Claims about `search_images` (C4, C10) -/

theorem mem_results_similarity (senv : SearchEnv) (st : IndexState)
    (query : String) (top_k : ℤ) (ns : String) :
    ∀ entry ∈ (search_images senv st query top_k ns).results,
      entry.similarity_percent = simPercent entry.score := by
  intro entry hmem
  unfold search_images at hmem
  cases h1 : senv.embedText query with
  | error e => rw [h1] at hmem; simp at hmem
  | ok emb =>
    rw [h1] at hmem
    cases h2 : senv.queryFail with
    | some e => rw [h2] at hmem; simp at hmem
    | none =>
      rw [h2] at hmem
      simp only [List.mem_map] at hmem
      rcases hmem with ⟨m, _, rfl⟩
      rfl

/-- Claim C4: for every search match with raw cosine score in `[-1, 1]`,
the `similarity_percent` field computed by `search_images` equals
`(score + 1) / 2 * 100`, and this mapping is monotonic non-decreasing in
the score. -/
theorem search_images_similarity_percent
    (senv : SearchEnv) (st : IndexState) (query : String) (top_k : ℤ) (ns : String) :
    (∀ entry ∈ (search_images senv st query top_k ns).results,
      -1 ≤ entry.score → entry.score ≤ 1 →
        entry.similarity_percent = (entry.score + 1) / 2 * 100) ∧
    (∀ s t : ℚ, s ≤ t → simPercent s ≤ simPercent t) := by
  constructor
  · intro entry hmem _ _
    rw [mem_results_similarity senv st query top_k ns entry hmem]
    unfold simPercent
    ring
  · intro s t hst
    unfold simPercent
    have hs : (s + 1) / 2 * 100 = 50 * s + 50 := by ring
    have ht : (t + 1) / 2 * 100 = 50 * t + 50 := by ring
    rw [hs, ht]
    linarith

theorem search_images_similarity_percent_witness :
    entryHit ∈ (search_images senvHit stAfterUpload "cat" 10 "").results ∧
    entryHit.similarity_percent = (entryHit.score + 1) / 2 * 100 := by
  have hres : (search_images senvHit stAfterUpload "cat" 10 "").results = [entryHit] :=
    rfl
  have hmem : entryHit ∈ (search_images senvHit stAfterUpload "cat" 10 "").results := by
    rw [hres]; exact List.mem_singleton.mpr rfl
  exact ⟨hmem, (search_images_similarity_percent senvHit stAfterUpload "cat" 10 "").1
    _ hmem (by norm_num [entryHit]) (by norm_num [entryHit])⟩

/-- Claim C10: every dictionary returned by `search_images` — on success
and on failure — satisfies `total_found == len(results)`; the failure
result always carries `results == []` and `total_found == 0`. -/
theorem search_images_total_found_invariant
    (senv : SearchEnv) (st : IndexState) (query : String) (top_k : ℤ) (ns : String) :
    ((search_images senv st query top_k ns).total_found =
      (search_images senv st query top_k ns).results.length) ∧
    ((search_images senv st query top_k ns).error.isSome →
      (search_images senv st query top_k ns).results = [] ∧
      (search_images senv st query top_k ns).total_found = 0) := by
  unfold search_images
  cases senv.embedText query with
  | error e => simp
  | ok emb =>
    cases senv.queryFail with
    | some e => simp
    | none => simp

theorem search_images_total_found_invariant_witness :
    (search_images senvFail [] "q" 10 "images").results = [] ∧
    (search_images senvFail [] "q" 10 "images").total_found = 0 :=
  (search_images_total_found_invariant senvFail [] "q" 10 "images").2 (by decide)

end Lumina

namespace Lumina

/-! ## Claim about the embedder image preparation (C9) -/

theorem ratFloor_eq_intFloor (q : ℚ) : q.floor = ⌊q⌋ := by
  rw [Rat.floor_def']
  exact (Rat.floor_def).symm

theorem prepImage_mode (img : PImage) : (prepImage img).mode = "RGB" := by
  unfold prepImage
  split <;>
    (dsimp only; split
     · rfl
     · rename_i h
       exact not_not.mp h)

theorem prepImage_width (img : PImage) :
    (prepImage img).width =
      (if max_size < max img.width img.height then resizeCapped img else img).width := by
  unfold prepImage
  split <;> (dsimp only; split <;> rfl)

theorem prepImage_height (img : PImage) :
    (prepImage img).height =
      (if max_size < max img.width img.height then resizeCapped img else img).height := by
  unfold prepImage
  split <;> (dsimp only; split <;> rfl)

theorem resizeCapped_dims_le (img : PImage) (h : max_size < max img.width img.height) :
    (resizeCapped img).width ≤ max_size ∧ (resizeCapped img).height ≤ max_size := by
  unfold resizeCapped
  have hd0 : (0 : ℚ) < (max img.width img.height : ℚ) := by
    have : 0 < max img.width img.height := lt_of_le_of_lt (Nat.zero_le _) h
    exact_mod_cast this
  have hkey : ∀ w : ℕ, w ≤ max img.width img.height →
      (((w : ℚ) * ((max_size : ℚ) / (max img.width img.height : ℚ))).floor).toNat ≤ max_size := by
    intro w hw
    have hx : (w : ℚ) * ((max_size : ℚ) / (max img.width img.height : ℚ)) ≤ (max_size : ℚ) := by
      have h1 : (w : ℚ) ≤ (max img.width img.height : ℚ) := by exact_mod_cast hw
      have h2 : (0 : ℚ) ≤ (max_size : ℚ) / (max img.width img.height : ℚ) := by positivity
      calc (w : ℚ) * ((max_size : ℚ) / (max img.width img.height : ℚ))
          ≤ (max img.width img.height : ℚ) * ((max_size : ℚ) / (max img.width img.height : ℚ)) :=
            mul_le_mul_of_nonneg_right h1 h2
        _ = (max_size : ℚ) := by field_simp
    rw [ratFloor_eq_intFloor]
    have hfl : ⌊(w : ℚ) * ((max_size : ℚ) / (max img.width img.height : ℚ))⌋ ≤ (max_size : ℤ) := by
      calc ⌊(w : ℚ) * ((max_size : ℚ) / (max img.width img.height : ℚ))⌋
          ≤ ⌊(max_size : ℚ)⌋ := Int.floor_le_floor hx
        _ = (max_size : ℤ) := Int.floor_natCast max_size
    exact Int.toNat_le.mpr hfl
  exact ⟨hkey img.width (le_max_left _ _), hkey img.height (le_max_right _ _)⟩

/-- Claim C9: for every input image, the image prepared for embedding has
longest side at most 512 pixels, an image already within the cap keeps
its dimensions, the resize scales both dimensions by one common ratio
(aspect-ratio preservation up to truncation to whole pixels), the colour
mode is RGB, and the serialised output is the JPEG bytes of the prepared
image encoded as a data string with the marker
`data:image/jpeg;base64,`. -/
theorem image_to_base64_prep_spec (saveBytes : String → PImage → List Nat)
    (b64encode : List Nat → String) (img : PImage) :
    (max (prepImage img).width (prepImage img).height ≤ max_size) ∧
    (max img.width img.height ≤ max_size →
      (prepImage img).width = img.width ∧ (prepImage img).height = img.height) ∧
    (max_size < max img.width img.height →
      ∃ scale : ℚ, 0 < scale ∧ scale < 1 ∧
        (prepImage img).width = (((img.width : ℚ) * scale).floor).toNat ∧
        (prepImage img).height = (((img.height : ℚ) * scale).floor).toNat) ∧
    ((prepImage img).mode = "RGB") ∧
    (image_to_base64 saveBytes b64encode img =
      "data:image/jpeg;base64," ++ b64encode (saveBytes "JPEG" (prepImage img))) := by
  refine ⟨?_, ?_, ?_, prepImage_mode img, rfl⟩
  · rw [prepImage_width, prepImage_height]
    by_cases hbig : max_size < max img.width img.height
    · rw [if_pos hbig]
      have hb := resizeCapped_dims_le img hbig
      exact max_le hb.1 hb.2
    · rw [if_neg hbig]
      exact le_of_not_lt hbig
  · intro hsmall
    rw [prepImage_width, prepImage_height]
    have hnot : ¬ max_size < max img.width img.height := not_lt.mpr hsmall
    rw [if_neg hnot]
    exact ⟨rfl, rfl⟩
  · intro hbig
    rw [prepImage_width, prepImage_height, if_pos hbig]
    refine ⟨(max_size : ℚ) / (max img.width img.height : ℚ), ?_, ?_, rfl, rfl⟩
    · have hd0 : (0 : ℚ) < (max img.width img.height : ℚ) := by
        have : 0 < max img.width img.height := lt_of_le_of_lt (Nat.zero_le _) hbig
        exact_mod_cast this
      have hm0 : (0 : ℚ) < (max_size : ℚ) := by
        have : 0 < max_size := by unfold max_size; omega
        exact_mod_cast this
      positivity
    · have hd0 : (0 : ℚ) < (max img.width img.height : ℚ) := by
        have : 0 < max img.width img.height := lt_of_le_of_lt (Nat.zero_le _) hbig
        exact_mod_cast this
      rw [div_lt_one hd0]
      exact_mod_cast hbig

theorem image_to_base64_prep_spec_witness :
    (max_size < max (PImage.mk 1024 768 "L").width (PImage.mk 1024 768 "L").height) ∧
    (∃ scale : ℚ, 0 < scale ∧ scale < 1 ∧
      (prepImage (PImage.mk 1024 768 "L")).width =
        ((((PImage.mk 1024 768 "L").width : ℚ) * scale).floor).toNat ∧
      (prepImage (PImage.mk 1024 768 "L")).height =
        ((((PImage.mk 1024 768 "L").height : ℚ) * scale).floor).toNat) :=
  ⟨by decide,
   (image_to_base64_prep_spec (fun _ _ => []) (fun _ => "") (PImage.mk 1024 768 "L")).2.2.1
     (by decide)⟩

end Lumina

namespace Lumina

/-! ## Claims about the API routes (C5, C6) -/

/-- Claim C5: the search endpoint rejects a request with HTTP 400, before
any embedding or vector-store call is made, exactly when the query is
missing or empty, or `top_k` is non-numeric, or `top_k` is outside
`[1, 100]`; otherwise validation passes and the service is invoked. -/
theorem route_search_validation (senv : SearchEnv) (st : IndexState)
    (body_query : Option String) (topk : TopKInput) (ns : String) :
    ((route_search senv st body_query topk ns).status = 400 ↔
      searchRejected body_query topk) ∧
    (searchRejected body_query topk →
      (route_search senv st body_query topk ns).serviceCalled = false) ∧
    (¬ searchRejected body_query topk →
      (route_search senv st body_query topk ns).serviceCalled = true ∧
      (route_search senv st body_query topk ns).status ≠ 400) := by
  unfold route_search searchRejected
  by_cases hq : body_query.getD "" = ""
  · simp [hq]
  · cases topk with
    | nonNumeric => simp [hq]
    | absent =>
      cases hres : (search_images senv st (body_query.getD "") 10 ns).error with
      | some e => simp [hq, hres]
      | none => simp [hq, hres]
    | numeric n =>
      by_cases hr : n < 1 ∨ 100 < n
      · simp [hq, hr]
      · cases hres : (search_images senv st (body_query.getD "") n ns).error with
        | some e => simp [hq, hr, hres]
        | none => simp [hq, hr, hres]

theorem route_search_validation_witness :
    (route_search senvHit [] (some "cat") (TopKInput.numeric 0) "images").serviceCalled = false ∧
    (route_search senvHit [] (some "cat") (TopKInput.numeric 101) "images").status = 400 ∧
    (route_search senvHit [] (some "cat") (TopKInput.numeric 1) "images").serviceCalled = true ∧
    (route_search senvHit [] (some "cat") (TopKInput.numeric 100) "images").serviceCalled = true := by
  refine ⟨?_, ?_, ?_, ?_⟩
  · exact (route_search_validation senvHit [] (some "cat") (TopKInput.numeric 0) "images").2.1
      (by simp [searchRejected])
  · exact ((route_search_validation senvHit [] (some "cat") (TopKInput.numeric 101) "images").1).mpr
      (by simp [searchRejected])
  · exact ((route_search_validation senvHit [] (some "cat") (TopKInput.numeric 1) "images").2.2
      (by simp [searchRejected])).1
  · exact ((route_search_validation senvHit [] (some "cat") (TopKInput.numeric 100) "images").2.2
      (by simp [searchRejected])).1

/-- Claim C6 fails on the code: when the stats retrieval underlying
telemetry fails, the `GET /api/telemetry` handler still returns HTTP 200,
and the body's status is `"operational"`, not `"error"` —
`ImageService.get_database_stats` swallows the failure, `get_telemetry`
replaces the missing fields with defaults, and the route never inspects
the result before answering 200.  The handler's 500 / `"error"` branch
only fires when the service call raises, which its catch-all prevents. -/
theorem route_get_telemetry_stats_failure :
    (route_get_telemetry (Except.error "database unreachable") 10 0 true "embed-v4.0").1 = 200 ∧
    (route_get_telemetry (Except.error "database unreachable") 10 0 true "embed-v4.0").2.status
      = "operational" ∧
    (route_get_telemetry (Except.error "database unreachable") 10 0 true "embed-v4.0").2.status
      ≠ "error" := by
  refine ⟨rfl, rfl, ?_⟩
  decide

end Lumina

namespace Lumina

/-! ## Claims about upload and the stored metadata (C1, C7) -/

/-- Claim C1 fails on the code: a fully successful `upload_image` of
`cat.jpg` reports success and upserts the (id, vector, metadata) record —
metadata carrying type `"image"`, the filename (under key `"fileName"`)
and a timestamp — but into the DEFAULT namespace `""`, not the fixed
namespace `"images"`: `storeImage` passes the namespace value to
`idx.upsert` under the misspelled keyword `nameSpace` (its sibling calls
spell it `namespace`), so the upsert's namespace parameter is never
bound.  A lookup in `"images"` finds nothing. -/
theorem upload_image_default_namespace :
    (upload_image envOk [] fileCat none "abc12345" none).1 =
      { message := some "Image uploaded successfully",
        image_id := some "Image_abc12345",
        filename := some "cat.jpg" } ∧
    lookupItem (upload_image envOk [] fileCat none "abc12345" none).2 "images"
      "Image_abc12345" = none ∧
    lookupItem (upload_image envOk [] fileCat none "abc12345" none).2 ""
        "Image_abc12345" =
      some ⟨"Image_abc12345", [1],
        [("type", MetaVal.str "image"), ("fileName", MetaVal.str "cat.jpg"),
         ("timestamp", MetaVal.num 0)]⟩ := by
  exact ⟨rfl, rfl, rfl⟩

/-- Claim C7 fails on the code: an item uploaded via `upload_image` with
filename `cat.jpg` is stored with metadata key `"fileName"`
(`VectorStore.storeImage`), but `search_images` reads the key
`"filename"`, so when the item appears in search results its filename
field is the default `"Unknown"` instead of `cat.jpg` — even though the
metadata snapshot in the match is copied from the stored item.  The
search below runs in the default namespace `""`, where `storeImage`
actually placed the record (its `nameSpace` keyword slip); `searchImages`
accepts the namespace from the caller, so this is a reachable request. -/
theorem search_filename_key_mismatch :
    (upload_image envOk [] fileCat none "abc12345" none).1.filename = some "cat.jpg" ∧
    lookupItem stAfterUpload "" "Image_abc12345" =
      some ⟨"Image_abc12345", [1],
        [("type", MetaVal.str "image"), ("fileName", MetaVal.str "cat.jpg"),
         ("timestamp", MetaVal.num 0)]⟩ ∧
    (search_images senvHit stAfterUpload "cat" 10 "").results = [entryHit] ∧
    entryHit.filename = MetaVal.str "Unknown" ∧
    MetaVal.str "Unknown" ≠ MetaVal.str "cat.jpg" := by
  refine ⟨rfl, rfl, rfl, rfl, ?_⟩
  decide

end Lumina

namespace Lumina

/-! ## Claim C2: structured errors, no exceptions across the boundary -/

theorem uploadBatchGo_shape (env : Env) (files : List BatchFileCase) :
    ∀ st ids failed,
      ((uploadBatchGo env files st ids failed).1.message =
        "Uploaded " ++ toString (uploadBatchGo env files st ids failed).1.total_uploaded
          ++ " images") ∧
      ((uploadBatchGo env files st ids failed).1.total_uploaded =
        (uploadBatchGo env files st ids failed).1.uploaded_ids.length) ∧
      ((uploadBatchGo env files st ids failed).1.total_failed =
        (uploadBatchGo env files st ids failed).1.failed.length) := by
  induction files with
  | nil => intro st ids failed; exact ⟨rfl, rfl, rfl⟩
  | cons f rest ih =>
    intro st ids failed
    unfold uploadBatchGo
    cases hp : processBatchFile env st f with
    | ok pr => exact ih pr.2 (ids ++ [pr.1]) failed
    | error fe => exact ih st ids (failed ++ [fe])

/-- Claim C2: every public Image Service operation returns a structured
result dictionary for every input — the embedded operations are total
functions, mirroring the catch-all `except` blocks that keep lower-layer
exceptions from crossing the service boundary — and on failure the
dictionary carries an error string together with the identifiers of the
failed operation (the image id for upload and delete, the query for
search).  `get_telemetry` always reports a structured status, its own
`except` branch being unreachable. -/
theorem service_error_contract :
    (∀ env st file idOpt genHex storeFail,
      (upload_image env st file idOpt genHex storeFail).1.image_id =
        some (chooseId idOpt genHex) ∧
      ((upload_image env st file idOpt genHex storeFail).1.error.isSome ∨
        (upload_image env st file idOpt genHex storeFail).1.message =
          some "Image uploaded successfully")) ∧
    (∀ env st files,
      (upload_images_batch env st files).1.message =
        "Uploaded " ++ toString (upload_images_batch env st files).1.total_uploaded
          ++ " images" ∧
      (upload_images_batch env st files).1.total_failed =
        (upload_images_batch env st files).1.failed.length) ∧
    (∀ senv st q k ns,
      (search_images senv st q k ns).query = q ∧
      ((search_images senv st q k ns).error.isSome →
        (search_images senv st q k ns).results = [] ∧
        (search_images senv st q k ns).total_found = 0)) ∧
    (∀ st i ns delFail,
      (delete_image st i ns delFail).1.image_id = some i ∧
      ((delete_image st i ns delFail).1.error.isSome ∨
        (delete_image st i ns delFail).1.message = some "Image deleted successfully")) ∧
    (∀ statsRes, (get_database_stats statsRes).error.isSome ∨
      (get_database_stats statsRes).total_vectors.isSome) ∧
    (∀ statsRes now start hc m,
      (get_telemetry statsRes now start hc m).status = "operational") := by
  refine ⟨?_, ?_, ?_, ?_, ?_, ?_⟩
  · intro env st file idOpt genHex storeFail
    unfold upload_image
    cases hr : file.readRes with
    | error e => exact ⟨rfl, Or.inl rfl⟩
    | ok image_bytes =>
      dsimp only
      cases hd : env.decode image_bytes with
      | error e => exact ⟨rfl, Or.inl rfl⟩
      | ok image =>
        dsimp only
        cases he : env.embedImage image with
        | error e => exact ⟨rfl, Or.inl rfl⟩
        | ok emb =>
          dsimp only
          cases storeFail with
          | some e => exact ⟨rfl, Or.inl rfl⟩
          | none => exact ⟨rfl, Or.inr rfl⟩
  · intro env st files
    have h := uploadBatchGo_shape env files st [] []
    exact ⟨h.1, h.2.2⟩
  · intro senv st q k ns
    unfold search_images
    cases h1 : senv.embedText q with
    | error e => exact ⟨rfl, fun _ => ⟨rfl, rfl⟩⟩
    | ok emb =>
      dsimp only
      cases h2 : senv.queryFail with
      | some e => exact ⟨rfl, fun _ => ⟨rfl, rfl⟩⟩
      | none => exact ⟨rfl, fun hcon => by simp at hcon⟩
  · intro st i ns delFail
    unfold delete_image
    cases delFail with
    | some e => exact ⟨rfl, Or.inl rfl⟩
    | none => exact ⟨rfl, Or.inr rfl⟩
  · intro statsRes
    unfold get_database_stats
    cases statsRes with
    | error e => exact Or.inl rfl
    | ok stats => exact Or.inr rfl
  · intro statsRes now start hc m
    rfl

theorem service_error_contract_witness :
    (upload_image envDecodeFail [] fileCat none "deadbeef" none).1.image_id =
      some "Image_deadbeef" ∧
    ((search_images senvFail [] "q" 10 "images").results = [] ∧
      (search_images senvFail [] "q" 10 "images").total_found = 0) := by
  constructor
  · exact (service_error_contract.1 envDecodeFail [] fileCat none "deadbeef" none).1
  · exact (service_error_contract.2.2.1 senvFail [] "q" 10 "images").2 (by decide)

end Lumina

namespace Lumina

/-! ## Claim C3: batch upload counts and partial success -/

theorem processBatchFile_err (env : Env) (st : IndexState) (f : BatchFileCase)
    (fe : FailEntry) (h : batchFileFail env f = some fe) :
    processBatchFile env st f = Except.error fe := by
  unfold batchFileFail at h
  unfold processBatchFile
  cases hr : f.readRes with
  | error e => rw [hr] at h; cases h; rfl
  | ok image_bytes =>
    rw [hr] at h
    dsimp only at h ⊢
    cases hd : env.decode image_bytes with
    | error e => rw [hd] at h; cases h; rfl
    | ok image =>
      rw [hd] at h
      dsimp only at h ⊢
      cases he : env.embedImage image with
      | error e => rw [he] at h; cases h; rfl
      | ok emb =>
        rw [he] at h
        dsimp only at h ⊢
        cases hs : f.storeFail with
        | some e => rw [hs] at h; cases h; rfl
        | none => rw [hs] at h; cases h

theorem processBatchFile_ok (env : Env) (st : IndexState) (f : BatchFileCase)
    (h : batchFileFail env f = none) :
    ∃ emb, processBatchFile env st f =
      Except.ok ("Image_" ++ f.genHex,
        storeImage st ("Image_" ++ f.genHex) emb f.filename "images" env.now) := by
  unfold batchFileFail at h
  unfold processBatchFile
  cases hr : f.readRes with
  | error e => rw [hr] at h; cases h
  | ok image_bytes =>
    rw [hr] at h
    dsimp only at h ⊢
    cases hd : env.decode image_bytes with
    | error e => rw [hd] at h; cases h
    | ok image =>
      rw [hd] at h
      dsimp only at h ⊢
      cases he : env.embedImage image with
      | error e => rw [he] at h; cases h
      | ok emb =>
        rw [he] at h
        dsimp only at h ⊢
        cases hs : f.storeFail with
        | some e => rw [hs] at h; cases h
        | none => exact ⟨emb, rfl⟩

theorem length_filter_ok_add_filterMap_fail (env : Env) (files : List BatchFileCase) :
    (files.filter (batchFileOk env)).length +
      (files.filterMap (batchFileFail env)).length = files.length := by
  induction files with
  | nil => rfl
  | cons f rest ih =>
    cases hf : batchFileFail env f with
    | some fe =>
      simp [List.filter_cons, List.filterMap_cons, batchFileOk, hf]
      omega
    | none =>
      simp [List.filter_cons, List.filterMap_cons, batchFileOk, hf]
      omega

theorem uploadBatchGo_full (env : Env) (files : List BatchFileCase) :
    ∀ st ids failed,
      ((uploadBatchGo env files st ids failed).1.uploaded_ids =
        ids ++ (files.filter (batchFileOk env)).map (fun f => "Image_" ++ f.genHex)) ∧
      ((uploadBatchGo env files st ids failed).1.failed =
        failed ++ files.filterMap (batchFileFail env)) ∧
      (∀ ns0 i, i ∈ storedIds st ns0 →
        i ∈ storedIds (uploadBatchGo env files st ids failed).2 ns0) ∧
      (∀ f ∈ files, batchFileOk env f = true →
        ("Image_" ++ f.genHex) ∈ storedIds (uploadBatchGo env files st ids failed).2 "") := by
  induction files with
  | nil =>
    intro st ids failed
    refine ⟨by simp [uploadBatchGo], by simp [uploadBatchGo], ?_, ?_⟩
    · intro ns0 i h
      simpa [uploadBatchGo] using h
    · intro f hf
      simp at hf
  | cons f rest ih =>
    intro st ids failed
    cases hf : batchFileFail env f with
    | some fe =>
      have hpf := processBatchFile_err env st f fe hf
      unfold uploadBatchGo
      rw [hpf]
      dsimp only
      obtain ⟨h1, h2, h3, h4⟩ := ih st ids (failed ++ [fe])
      refine ⟨?_, ?_, h3, ?_⟩
      · rw [h1]
        simp [List.filter_cons, batchFileOk, hf]
      · rw [h2]
        simp [List.filterMap_cons, hf]
      · intro g hg hok
        rcases List.mem_cons.mp hg with hgf | hg2
        · rw [hgf, batchFileOk, hf] at hok
          simp at hok
        · exact h4 g hg2 hok
    | none =>
      obtain ⟨emb, hpf⟩ := processBatchFile_ok env st f hf
      unfold uploadBatchGo
      rw [hpf]
      dsimp only
      obtain ⟨h1, h2, h3, h4⟩ :=
        ih (storeImage st ("Image_" ++ f.genHex) emb f.filename "images" env.now)
          (ids ++ ["Image_" ++ f.genHex]) failed
      refine ⟨?_, ?_, ?_, ?_⟩
      · rw [h1]
        simp [List.filter_cons, batchFileOk, hf]
      · rw [h2]
        simp [List.filterMap_cons, hf]
      · intro ns0 i hi
        apply h3
        unfold storeImage
        exact mem_storedIds_upsertOne_of_mem st ns0 "" _ i hi
      · intro g hg hok
        rcases List.mem_cons.mp hg with hgf | hg2
        · rw [hgf]
          apply h3
          unfold storeImage
          exact mem_storedIds_upsertOne_self st "" _
        · exact h4 g hg2 hok

/-- Claim C3: for every list of input files of which some fail (at
reading, decoding, embedding or storing), `upload_images_batch` returns
`total_uploaded + total_failed == N` and
`total_uploaded == len(uploaded_ids)`; a failure on one file does not
abort processing of the remaining files — `uploaded_ids` contains exactly
the generated id of every succeeding file, in order — and every
succeeding file's id is stored in the index afterwards (in the default
namespace `""`, where `storeImage`'s upsert actually writes; see the
`nameSpace` keyword slip documented on `storeImage`). -/
theorem upload_images_batch_partial_success (env : Env) (st : IndexState)
    (files : List BatchFileCase) :
    ((upload_images_batch env st files).1.total_uploaded +
      (upload_images_batch env st files).1.total_failed = files.length) ∧
    ((upload_images_batch env st files).1.total_uploaded =
      (upload_images_batch env st files).1.uploaded_ids.length) ∧
    ((upload_images_batch env st files).1.uploaded_ids =
      (files.filter (batchFileOk env)).map (fun f => "Image_" ++ f.genHex)) ∧
    (∀ f ∈ files, batchFileOk env f = true →
      ("Image_" ++ f.genHex) ∈ storedIds (upload_images_batch env st files).2 "") := by
  obtain ⟨h1, h2, h3, h4⟩ := uploadBatchGo_full env files st [] []
  obtain ⟨hs1, hs2, hs3⟩ := uploadBatchGo_shape env files st [] []
  have hids : (upload_images_batch env st files).1.uploaded_ids =
      (files.filter (batchFileOk env)).map (fun f => "Image_" ++ f.genHex) := by
    unfold upload_images_batch
    rw [h1]
    simp
  have hfailed : (upload_images_batch env st files).1.failed =
      files.filterMap (batchFileFail env) := by
    unfold upload_images_batch
    rw [h2]
    simp
  refine ⟨?_, ?_, hids, h4⟩
  · unfold upload_images_batch
    rw [hs2, hs3]
    unfold upload_images_batch at hids hfailed
    rw [hids, hfailed, List.length_map]
    exact length_filter_ok_add_filterMap_fail env files
  · unfold upload_images_batch
    exact hs2

end Lumina

namespace Lumina

theorem upload_images_batch_partial_success_witness :
    ((upload_images_batch envOk [] filesMix).1.total_uploaded +
      (upload_images_batch envOk [] filesMix).1.total_failed = filesMix.length) ∧
    ("Image_aaaa" ∈ storedIds (upload_images_batch envOk [] filesMix).2 "") := by
  have h := upload_images_batch_partial_success envOk [] filesMix
  refine ⟨h.1, ?_⟩
  have hg := h.2.2.2 fileGood (List.mem_cons_self _ _) (by decide)
  exact hg

end Lumina

namespace Lumina

/-! ## Claim C8: `storeMultipleImages` chunking -/

theorem chunksOf100_join_aux {α : Type} :
    ∀ (n : Nat) (l : List α), l.length ≤ n → (chunksOf100 l).flatten = l := by
  intro n
  induction n with
  | zero =>
    intro l hl
    have hnil : l = [] := List.length_eq_zero.mp (Nat.le_zero.mp hl)
    subst hnil
    rw [chunksOf100]
    rfl
  | succ n ih =>
    intro l hl
    cases l with
    | nil =>
      rw [chunksOf100]
      rfl
    | cons x xs =>
      rw [chunksOf100]
      simp only [List.isEmpty_cons, if_false, Bool.false_eq_true]
      rw [List.flatten_cons]
      rw [ih ((x :: xs).drop 100) (by simp [List.length_drop] at hl ⊢; omega)]
      exact List.take_append_drop 100 (x :: xs)

theorem chunksOf100_join {α : Type} (l : List α) : (chunksOf100 l).flatten = l :=
  chunksOf100_join_aux l.length l le_rfl

theorem chunksOf100_mem_aux {α : Type} :
    ∀ (n : Nat) (l : List α), l.length ≤ n → ∀ c ∈ chunksOf100 l, c.length ≤ 100 := by
  intro n
  induction n with
  | zero =>
    intro l hl c hc
    have hnil : l = [] := List.length_eq_zero.mp (Nat.le_zero.mp hl)
    subst hnil
    rw [chunksOf100] at hc
    simp at hc
  | succ n ih =>
    intro l hl c hc
    cases l with
    | nil =>
      rw [chunksOf100] at hc
      simp at hc
    | cons x xs =>
      rw [chunksOf100] at hc
      simp only [List.isEmpty_cons, if_false, Bool.false_eq_true] at hc
      rcases List.mem_cons.mp hc with hcf | hc2
      · rw [hcf]
        simp [List.length_take]
      · exact ih ((x :: xs).drop 100) (by simp [List.length_drop] at hl ⊢; omega) c hc2

theorem chunksOf100_mem_le {α : Type} (l : List α) :
    ∀ c ∈ chunksOf100 l, c.length ≤ 100 :=
  chunksOf100_mem_aux l.length l le_rfl

theorem runChunkCalls_all_ok (ns : String) (cf : Nat → Option String)
    (hcf : ∀ k, cf k = none) :
    ∀ (cs : List (List StoredItem)) (k : Nat) (st : IndexState),
      runChunkCalls ns cf cs k st = ⟨cs, upsertAll st ns cs.flatten, none⟩ := by
  intro cs
  induction cs with
  | nil =>
    intro k st
    rfl
  | cons c cs2 ih =>
    intro k st
    simp only [runChunkCalls]
    rw [hcf k]
    dsimp only
    rw [ih (k + 1) (upsertAll st ns c)]
    dsimp only
    rw [List.flatten_cons]
    unfold upsertAll
    rw [List.foldl_append]

theorem runChunkCalls_first_fail (ns : String) (cf : Nat → Option String) :
    ∀ (cs : List (List StoredItem)) (j k : Nat) (st : IndexState) (e : String),
      (∀ i, i < j → cf (k + i) = none) → cf (k + j) = some e → j < cs.length →
      runChunkCalls ns cf cs k st =
        ⟨cs.take (j + 1), upsertAll st ns ((cs.take j).flatten), some e⟩ := by
  intro cs
  induction cs with
  | nil =>
    intro j k st e h1 h2 hj
    simp at hj
  | cons c cs2 ih =>
    intro j k st e h1 h2 hj
    cases j with
    | zero =>
      have hk : cf k = some e := by simpa using h2
      simp only [runChunkCalls]
      rw [hk]
      rfl
    | succ j2 =>
      have hk : cf k = none := by
        have h0 := h1 0 (Nat.succ_pos j2)
        simpa using h0
      have ha : ∀ i, i < j2 → cf (k + 1 + i) = none := by
        intro i hi
        have h0 := h1 (i + 1) (Nat.succ_lt_succ hi)
        have heq : k + (i + 1) = k + 1 + i := by omega
        rwa [heq] at h0
      have hb : cf (k + 1 + j2) = some e := by
        have heq : k + (j2 + 1) = k + 1 + j2 := by omega
        rwa [heq] at h2
      have hc : j2 < cs2.length := by
        simp only [List.length_cons] at hj
        omega
      simp only [runChunkCalls]
      rw [hk]
      dsimp only
      rw [ih j2 (k + 1) (upsertAll st ns c) e ha hb hc]
      dsimp only
      rw [List.take_succ_cons, List.take_succ_cons, List.flatten_cons]
      unfold upsertAll
      rw [List.foldl_append]

/-- Claim C8: `storeMultipleImages` partitions its input, in order, into
consecutive chunks of at most 100 items and upserts each chunk with one
remote call; when every chunk call succeeds, the concatenation of the
chunks is exactly the input (each item written exactly once) and the
final state upserts them all; when the `j`-th chunk call raises, that
chunk is aborted, the loop stops, and the state keeps exactly the first
`j` chunks — previously written chunks are not rolled back. -/
theorem storeMultipleImages_chunked (st : IndexState) (imageData : List ImageData)
    (ns : String) (now : ℚ) (cf : Nat → Option String) :
    ((chunksOf100 (imageData.map (imageVector now))).flatten = imageData.map (imageVector now)) ∧
    (∀ c ∈ chunksOf100 (imageData.map (imageVector now)), c.length ≤ 100) ∧
    ((∀ k, cf k = none) →
      storeMultipleImages st imageData ns now cf =
        ⟨chunksOf100 (imageData.map (imageVector now)),
         upsertAll st ns (imageData.map (imageVector now)), none⟩) ∧
    (∀ j e, (∀ i, i < j → cf i = none) → cf j = some e →
      j < (chunksOf100 (imageData.map (imageVector now))).length →
      storeMultipleImages st imageData ns now cf =
        ⟨(chunksOf100 (imageData.map (imageVector now))).take (j + 1),
         upsertAll st ns (((chunksOf100 (imageData.map (imageVector now))).take j).flatten),
         some e⟩) := by
  refine ⟨chunksOf100_join _, chunksOf100_mem_le _, ?_, ?_⟩
  · intro hcf
    unfold storeMultipleImages
    rw [runChunkCalls_all_ok ns cf hcf _ 0 st, chunksOf100_join]
  · intro j e h1 h2 hj
    unfold storeMultipleImages
    exact runChunkCalls_first_fail ns cf _ j 0 st e
      (by intro i hi; simpa using h1 i hi) (by simpa using h2) hj

theorem storeMultipleImages_chunked_witness :
    storeMultipleImages [] dataTwo "images" 0 noChunkFail =
      ⟨chunksOf100 (dataTwo.map (imageVector 0)),
       upsertAll [] "images" (dataTwo.map (imageVector 0)), none⟩ :=
  (storeMultipleImages_chunked [] dataTwo "images" 0 noChunkFail).2.2.1 (fun _ => rfl)

end Lumina
